import Mathlib

set_option maxHeartbeats 1000000

/-- JavaScript strings are modeled as lists of characters. All concrete inputs
used below are ASCII, where JS UTF-16 code units coincide with code points. -/
abbrev JStr := List Char

def lbrace : Char := Char.ofNat 123

def rbrace : Char := Char.ofNat 125

def bslash : Char := '\\'

def nulChar : Char := Char.ofNat 0

def aposCh : Char := Char.ofNat 39

/-- Whitespace class used by JS `trim` and the regex class `\s`
(ASCII whitespace plus NBSP; further Unicode space code points are
irrelevant to the ASCII inputs considered). -/
def isWS (c : Char) : Bool :=
  c == ' ' || c == '\t' || c == '\n' || c == '\r' ||
  c == Char.ofNat 11 || c == Char.ofNat 12 || c == Char.ofNat 160

def isAlnumCh (c : Char) : Bool :=
  (decide ('A' ≤ c) && decide (c ≤ 'Z')) ||
  (decide ('a' ≤ c) && decide (c ≤ 'z')) ||
  (decide ('0' ≤ c) && decide (c ≤ '9'))

def isAlphaCh (c : Char) : Bool :=
  (decide ('A' ≤ c) && decide (c ≤ 'Z')) || (decide ('a' ≤ c) && decide (c ≤ 'z'))

def isDigitCh (c : Char) : Bool := decide ('0' ≤ c) && decide (c ≤ '9')

def isHexCh (c : Char) : Bool :=
  isDigitCh c || (decide ('a' ≤ c) && decide (c ≤ 'f')) ||
  (decide ('A' ≤ c) && decide (c ≤ 'F'))

def lowerCh (c : Char) : Char :=
  if decide ('A' ≤ c) && decide (c ≤ 'Z') then Char.ofNat (c.toNat + 32) else c

/-- Model of JS `String.prototype.toLowerCase` on ASCII input. -/
def lowerStr (s : JStr) : JStr := s.map lowerCh

def leadsWith : JStr → JStr → Bool
  | [], _ => true
  | _ :: _, [] => false
  | a :: as, b :: bs => a == b && leadsWith as bs

def endsWithStr (pat s : JStr) : Bool := leadsWith pat.reverse s.reverse

/-- Model of JS `String.prototype.trim` (strip whitespace from both ends). -/
def jsTrim (s : JStr) : JStr := ((s.dropWhile isWS).reverse.dropWhile isWS).reverse

/-- Model of `s.replace(/\u0000/g, '')` from `extractText` (page.tsx). -/
def toPlain (s : JStr) : JStr := s.filter (fun c => decide (c ≠ nulChar))

/-- Model of `(pageText.match(/[A-Za-z0-9]/g) || []).length` (page.tsx). -/
def alnumCount (s : JStr) : Nat := (s.filter isAlnumCh).length

/-- Model of JS `Array.prototype.join(' ')`. -/
def joinSp : List JStr → JStr
  | [] => []
  | [x] => x
  | x :: xs => x ++ ' ' :: joinSp xs

/-- Model of JS `Array.prototype.join('\n')`. -/
def joinNl : List JStr → JStr
  | [] => []
  | [x] => x
  | x :: xs => x ++ '\n' :: joinNl xs

/-- Model of the PDF page loop `out += pageText + (i < pdf.numPages ? '\n\n' : '')`:
pages joined by a blank-line separator, none after the last (page.tsx). -/
def joinPages : List JStr → JStr
  | [] => []
  | [x] => x
  | x :: xs => x ++ '\n' :: '\n' :: joinPages xs

/-- Model of JS `String.prototype.split('\n')`. -/
def splitNl : JStr → List JStr
  | [] => [[]]
  | c :: rest =>
    if c == '\n' then [] :: splitNl rest
    else
      match splitNl rest with
      | h :: t => (c :: h) :: t
      | [] => [[c]]

/-- Split off the segment before the first `>` character; `none` when absent
(used by the lazy-until-gt parts of the scraping regexes). -/
def splitFirstGt : JStr → Option (JStr × JStr)
  | [] => none
  | c :: rest =>
    if c == '>' then some ([], rest)
    else
      match splitFirstGt rest with
      | some (a, b) => some (c :: a, b)
      | none => none

/-- Model of `raw.replace(/\\par[d]?/g, '\n')` (RTF stripper, page.tsx). -/
def stripPard : Nat → JStr → JStr
  | 0, s => s
  | _, [] => []
  | fuel + 1, c :: rest =>
    if leadsWith ("\\par".data) (c :: rest) then
      match List.drop 4 (c :: rest) with
      | 'd' :: r2 => '\n' :: stripPard fuel r2
      | r => '\n' :: stripPard fuel r
    else c :: stripPard fuel rest

/-- Model of `.replace(/\\'[0-9a-fA-F]{2}/g, '')` (RTF stripper, page.tsx). -/
def stripHexEsc : Nat → JStr → JStr
  | 0, s => s
  | _, [] => []
  | fuel + 1, c :: rest =>
    if c == bslash then
      match rest with
      | q :: h1 :: h2 :: r =>
        if q == aposCh && isHexCh h1 && isHexCh h2 then stripHexEsc fuel r
        else c :: stripHexEsc fuel rest
      | _ => c :: stripHexEsc fuel rest
    else c :: stripHexEsc fuel rest

/-- Model of `.replace(/\\u-?\d+\??/g, '')` (RTF stripper, page.tsx). -/
def stripUEsc : Nat → JStr → JStr
  | 0, s => s
  | _, [] => []
  | fuel + 1, c :: rest =>
    if c == bslash then
      match rest with
      | 'u' :: r1 =>
        let rd := match r1 with
          | '-' :: r2 => r2
          | _ => r1
        let digs := rd.takeWhile isDigitCh
        if digs.length == 0 then c :: stripUEsc fuel rest
        else
          let r3 := rd.drop digs.length
          let r4 := match r3 with
            | '?' :: r5 => r5
            | _ => r3
          stripUEsc fuel r4
      | _ => c :: stripUEsc fuel rest
    else c :: stripUEsc fuel rest

/-- Model of `.replace(/\\[a-zA-Z]+-?\d* ?/g, '')` (RTF stripper, page.tsx). -/
def stripCtrlWords : Nat → JStr → JStr
  | 0, s => s
  | _, [] => []
  | fuel + 1, c :: rest =>
    if c == bslash then
      let letters := rest.takeWhile isAlphaCh
      if letters.length == 0 then c :: stripCtrlWords fuel rest
      else
        let r1 := rest.drop letters.length
        let r2 := match r1 with
          | '-' :: r => r
          | _ => r1
        let r3 := r2.drop (r2.takeWhile isDigitCh).length
        let r4 := match r3 with
          | ' ' :: r => r
          | _ => r3
        stripCtrlWords fuel r4
    else c :: stripCtrlWords fuel rest

/-- Model of the naive RTF to text stripper in `extractText` (page.tsx):
brace removal followed by the four control-sequence replaces, in source order. -/
def rtfStrip (raw : JStr) : JStr :=
  let s1 := raw.filter (fun c => !(c == lbrace || c == rbrace))
  let s2 := stripPard (s1.length + 1) s1
  let s3 := stripHexEsc (s2.length + 1) s2
  let s4 := stripUEsc (s3.length + 1) s3
  stripCtrlWords (s4.length + 1) s4

/-- Locate the earliest `</w:t>` whose gap from the start contains no newline
(the capture group `(.*?)` of the `w:t` regex cannot cross a newline). -/
def findCloseWT : JStr → Option (JStr × JStr)
  | [] => none
  | c :: rest =>
    if leadsWith ("</w:t>".data) (c :: rest) then some ([], List.drop 6 (c :: rest))
    else if c == '\n' then none
    else
      match findCloseWT rest with
      | some (a, b) => some (c :: a, b)
      | none => none

/-- Model of `docXml.matchAll(/<w:t[^>]*>(.*?)<\/w:t>/g)` (page.tsx):
a leftmost, non-overlapping scan collecting the captured text runs. -/
def findWTs : Nat → JStr → List JStr
  | 0, _ => []
  | _, [] => []
  | fuel + 1, c :: rest =>
    if leadsWith ("<w:t".data) (c :: rest) then
      match splitFirstGt (List.drop 4 (c :: rest)) with
      | some (_, afterGt) =>
        match findCloseWT afterGt with
        | some (cap, after) => cap :: findWTs fuel after
        | none => findWTs fuel rest
      | none => findWTs fuel rest
    else findWTs fuel rest

/-- Model of `docXml.split(/<w:p[\s\S]*?>/).length - 1` (page.tsx):
the number of matches of the paragraph-open pattern. -/
def countWP : Nat → JStr → Nat
  | 0, _ => 0
  | _, [] => 0
  | fuel + 1, c :: rest =>
    if leadsWith ("<w:p".data) (c :: rest) then
      match splitFirstGt (List.drop 4 (c :: rest)) with
      | some (_, after) => countWP fuel after + 1
      | none => countWP fuel rest
    else countWP fuel rest

/-- Model of `content.replace(/\s{2,}/g, '\n')` (page.tsx): each maximal run of
two or more whitespace characters becomes a single newline. -/
def collapseWS : Nat → JStr → JStr
  | 0, s => s
  | _, [] => []
  | _ + 1, [c] => [c]
  | fuel + 1, c :: d :: rest =>
    if isWS c && isWS d then '\n' :: collapseWS fuel (rest.dropWhile isWS)
    else c :: collapseWS fuel (d :: rest)

/-- Model of the DOCX markup scraping in `extractText` (page.tsx): collect the
`w:t` text runs, concatenate, and collapse whitespace runs when at least one
paragraph-open tag was seen. -/
def docxScrape (xml : JStr) : JStr :=
  let texts := findWTs (xml.length + 1) xml
  let content := List.flatten texts
  let paraBreaks := countWP (xml.length + 1) xml
  if paraBreaks > 0 then collapseWS (content.length + 1) content else content

/-- Locate the earliest `</text:p>` (the ODT capture group `([\s\S]*?)` may
cross newlines). -/
def findCloseTP : JStr → Option (JStr × JStr)
  | [] => none
  | c :: rest =>
    if leadsWith ("</text:p>".data) (c :: rest) then some ([], List.drop 9 (c :: rest))
    else
      match findCloseTP rest with
      | some (a, b) => some (c :: a, b)
      | none => none

/-- Model of `contentXml.matchAll(/<text:p[^>]*>([\s\S]*?)<\/text:p>/g)`
(page.tsx). -/
def findTPs : Nat → JStr → List JStr
  | 0, _ => []
  | _, [] => []
  | fuel + 1, c :: rest =>
    if leadsWith ("<text:p".data) (c :: rest) then
      match splitFirstGt (List.drop 7 (c :: rest)) with
      | some (_, afterGt) =>
        match findCloseTP afterGt with
        | some (cap, after) => cap :: findTPs fuel after
        | none => findTPs fuel rest
      | none => findTPs fuel rest
    else findTPs fuel rest

/-- Model of `.replace(/<[^>]+>/g, '')` (page.tsx): delete tag-shaped spans. -/
def stripTags : Nat → JStr → JStr
  | 0, s => s
  | _, [] => []
  | fuel + 1, c :: rest =>
    if c == '<' then
      match rest with
      | [] => ['<']
      | d :: _ =>
        if d == '>' then c :: stripTags fuel rest
        else
          match splitFirstGt rest with
          | some (_, after) => stripTags fuel after
          | none => c :: stripTags fuel rest
    else c :: stripTags fuel rest

/-- Model of the ODT markup scraping in `extractText` (page.tsx). -/
def odtScrape (xml : JStr) : JStr :=
  joinNl ((findTPs (xml.length + 1) xml).map (fun cap => jsTrim (stripTags (cap.length + 1) cap)))

/-- One PDF page as seen by the extractor: the text-layer items (their `str`
fields, with non-strings already mapped to the empty string as in the source),
and the OCR oracle: `some t` when rendering plus `Tesseract.recognize` would
succeed with text `t`, `none` when the canvas context is unavailable or any
step throws (the source swallows those errors). -/
structure PdfPage where
  items : List JStr
  ocrText : Option JStr
deriving DecidableEq

/-- Model of `items.map((it) => ...).join(' ')` (page.tsx). -/
def pageTextOf (p : PdfPage) : JStr := joinSp p.items

/-- Model of the OCR-fallback trigger
`pageText.trim().length < 20 || alnumCount < pageText.length * 0.2` (page.tsx).
The JS double multiplication by 0.2 is modeled as the exact rational
comparison `alnumCount < length / 5`, written over naturals. -/
def needsOCR (s : JStr) : Bool :=
  decide ((jsTrim s).length < 20) || decide (5 * alnumCount s < s.length)

/-- Trigger predicate following the claim wording of C2 literally
("fewer than 20 characters" of the raw text-layer output, not of its trimmed
form). Declared only to compare the claim against the source definition. -/
def specNeedsOCR (s : JStr) : Bool :=
  decide (s.length < 20) || decide (5 * alnumCount s < s.length)

/-- Per-page processing of the PDF extractor loop (page.tsx): returns the
final page text and whether the OCR fallback path was entered. A successful
OCR result replaces the page text only when its trim is nonempty. -/
def processPage (p : PdfPage) : JStr × Bool :=
  if needsOCR (pageTextOf p) then
    match p.ocrText with
    | some r => (if jsTrim r = [] then pageTextOf p else jsTrim r, true)
    | none => (pageTextOf p, true)
  else (pageTextOf p, false)

inductive DocFormat
  | PDF
  | DOCX
  | TXT
  | RTF
  | ODT
deriving DecidableEq

/-- The `ConversionFormat` display labels (page.tsx). -/
def fmtLabel : DocFormat → JStr
  | .PDF => ("PDF").data
  | .DOCX => ("Word Document (DOCX)").data
  | .TXT => ("Text File (TXT)").data
  | .RTF => ("Rich Text (RTF)").data
  | .ODT => ("OpenDocument Text (ODT)").data

/-- The `extMap` of `convertDocument` (page.tsx). -/
def extOf : DocFormat → JStr
  | .PDF => (".pdf").data
  | .DOCX => (".docx").data
  | .TXT => (".txt").data
  | .RTF => (".rtf").data
  | .ODT => (".odt").data

/-- The `getMimeType` lookup (page.tsx). -/
def mimeOf : DocFormat → JStr
  | .DOCX => ("application/vnd.openxmlformats-officedocument.wordprocessingml.document").data
  | .PDF => ("application/pdf").data
  | .TXT => ("text/plain").data
  | .RTF => ("application/rtf").data
  | .ODT => ("application/vnd.oasis.opendocument.text").data

/-- The uploaded file, abstracted by the views the extractor reads per
declared format: raw text, the ZIP markup parts (`none` when the archive
lacks the part), and the PDF page list. -/
structure JSFile where
  name : JStr
  text : JStr
  docxXml : Option JStr
  odtXml : Option JStr
  pdfPages : List PdfPage
deriving DecidableEq

/-- Model of `extractText` (page.tsx): format dispatch over the file views. -/
def extractText (file : JSFile) : DocFormat → JStr
  | .TXT => file.text
  | .RTF => toPlain (rtfStrip file.text)
  | .DOCX =>
    match file.docxXml with
    | none => []
    | some xml => toPlain (docxScrape xml)
  | .ODT =>
    match file.odtXml with
    | none => []
    | some xml => toPlain (odtScrape xml)
  | .PDF => toPlain (joinPages (file.pdfPages.map (fun p => (processPage p).1)))

/-- Model of the RTF escaping `.replace(/\\/g,'\\\\').replace(/{/g,'\\{').replace(/}/g,'\\}')`
(page.tsx). -/
def escRtf : JStr → JStr
  | [] => []
  | c :: r =>
    if c == bslash then bslash :: bslash :: escRtf r
    else if c == lbrace then bslash :: lbrace :: escRtf r
    else if c == rbrace then bslash :: rbrace :: escRtf r
    else c :: escRtf r

/-- Model of `.replace(/\n/g, '\\par\n')` (page.tsx). -/
def nlToPar : JStr → JStr
  | [] => []
  | c :: r =>
    if c == '\n' then bslash :: 'p' :: 'a' :: 'r' :: '\n' :: nlToPar r
    else c :: nlToPar r

/-- Model of the minimal RTF document built for the RTF target (page.tsx). -/
def rtfDoc (full : JStr) : JStr :=
  lbrace :: ("\\rtf1\\ansi\n").data ++ nlToPar (escRtf full) ++ '\n' :: [rbrace]

/-- Model of `.replace(/&/g,'&amp;').replace(/</g,'&lt;')` (page.tsx). -/
def xmlEscAmpLt : JStr → JStr
  | [] => []
  | c :: r =>
    if c == '&' then ("&amp;").data ++ xmlEscAmpLt r
    else if c == '<' then ("&lt;").data ++ xmlEscAmpLt r
    else c :: xmlEscAmpLt r

/-- Model of the single-file OpenDocument XML built for the ODT target
(page.tsx). -/
def odtDoc (full : JStr) : JStr :=
  ("<?xml version=\"1.0\" encoding=\"UTF-8\"?>\n<office:document xmlns:office=\"urn:oasis:names:tc:opendocument:xmlns:office:1.0\" xmlns:text=\"urn:oasis:names:tc:opendocument:xmlns:text:1.0\"><office:body><office:text>").data ++
  List.flatten ((splitNl full).map (fun p => ("<text:p>").data ++ xmlEscAmpLt p ++ ("</text:p>").data)) ++
  ("</office:text></office:body></office:document>").data

/-- The client-built artifact. Text-payload targets carry their exact byte
content; the DOCX builder is abstracted by the paragraph lines handed to the
external document-model library, and the PDF builder by the full text handed
to the external layout engine (word wrap depends on its font metrics). -/
inductive Artifact
  | text (content : JStr) (mime : JStr)
  | docxParas (paragraphs : List JStr)
  | pdfDoc (full : JStr)
deriving DecidableEq

/-- Model of the per-target client builders of `convertDocument` (page.tsx). -/
def buildArtifact (full : JStr) : DocFormat → Artifact
  | .TXT => .text full (mimeOf .TXT)
  | .RTF => .text (rtfDoc full) (mimeOf .RTF)
  | .ODT => .text (odtDoc full) (mimeOf .ODT)
  | .DOCX => .docxParas (splitNl full)
  | .PDF => .pdfDoc full

/-- The client-side `Health` record (page.tsx); the dispatcher gate reads only
`ok`, and the health endpoint always sets `ok` equal to `server.available`. -/
structure HealthInfo where
  ok : Bool
  serverAvailable : Bool
deriving DecidableEq

/-- Model of the JS guard `useServer && health && !health.ok` minus the
`useServer` conjunct: a `null` health object short-circuits the gate. -/
def healthBad : Option HealthInfo → Bool
  | some h => !h.ok
  | none => false

/-- Component state read by `convertDocument` (page.tsx), plus the timestamp
`new Date().toLocaleString()` observed during the run. -/
structure ConvEnv where
  useServer : Bool
  preserveLayout : Bool
  health : Option HealthInfo
  now : JStr
deriving DecidableEq

/-- The observable outcome of one `convertDocument` call: an error thrown
before any network traffic, the network request issued to `/api/convert`
(with the form fields it carries), the image-embedding layout path, or a
client-built artifact together with the `full` text fed to every builder. -/
inductive Outcome
  | err (msg : JStr)
  | serverRequest (sourceExt targetExt : JStr)
  | layoutDocx (pages : List PdfPage)
  | client (full : JStr) (art : Artifact)
deriving DecidableEq

def msgUnavailable : JStr :=
  ("Server conversion unavailable. See health check details.").data

def msgPdfBlocked : JStr :=
  ("PDF → DOCX/ODT is not supported in server mode. Disable \"Use server conversion\" or enable \"Preserve layout\" for image-based DOCX.").data

def placeholder : JStr := ("(No extractable text found)").data

/-- Model of the provenance header prepended by `convertDocument` (page.tsx). -/
def mkHeader (env : ConvEnv) (file : JSFile) (src tgt : DocFormat) : JStr :=
  ("Converted from: ").data ++ file.name ++ ("\nOriginal format: ").data ++ fmtLabel src ++
  ("\nTarget format: ").data ++ fmtLabel tgt ++ ("\nConversion date: ").data ++ env.now ++
  ("\n\n").data

/-- Model of `convertDocument` (page.tsx): the policy gates in source order,
then the server delegation, the layout-preserving special path, and finally
the extract-then-build client path. -/
def convertDocument (env : ConvEnv) (file : JSFile) (src tgt : DocFormat) : Outcome :=
  if env.useServer = true ∧ healthBad env.health = true then .err msgUnavailable
  else if env.useServer = true ∧ src = .PDF ∧ (tgt = .DOCX ∨ tgt = .ODT) then .err msgPdfBlocked
  else if env.useServer = true then .serverRequest (extOf src) (extOf tgt)
  else if src = .PDF ∧ tgt = .DOCX ∧ env.preserveLayout = true then .layoutDocx file.pdfPages
  else
    .client
      (mkHeader env file src tgt ++
        (if jsTrim (extractText file src) = [] then placeholder else extractText file src))
      (buildArtifact
        (mkHeader env file src tgt ++
          (if jsTrim (extractText file src) = [] then placeholder else extractText file src)) tgt)

def isErr : Outcome → Bool
  | .err _ => true
  | _ => false

def issuesNetwork : Outcome → Bool
  | .serverRequest _ _ => true
  | _ => false

/-- One POST to `/api/convert` (route.ts), abstracted by the form fields the
handler reads before invoking the external conversion. -/
structure ApiReq where
  hasBlobFile : Bool
  fileName : JStr
  targetExt : Option JStr
  sourceExt : Option JStr
deriving DecidableEq

/-- The handler outcome up to the external LibreOffice invocation: the two
early 400 rejections, or proceeding to the conversion attempt. -/
inductive ApiRes
  | invalidReq
  | pdfBlocked
  | convertAttempt (target : JStr)
deriving DecidableEq

/-- JS falsiness of the (possibly absent) lowercased extension string. -/
def falsyOpt : Option JStr → Bool
  | none => true
  | some s => decide (s = [])

/-- Model of `/\.pdf$/i.test(name)` (route.ts). -/
def endsPdfCI (name : JStr) : Bool := endsWithStr ((".pdf").data) (lowerStr name)

/-- Model of `targetExt.replace(/^\./, '')` (route.ts). -/
def stripDot : JStr → JStr
  | '.' :: r => r
  | s => s

/-- Model of the `POST` handler of route.ts up to the LibreOffice call:
request validation, then the early PDF to DOCX/ODT rejection. -/
def postRoute (r : ApiReq) : ApiRes :=
  if r.hasBlobFile = false ∨ falsyOpt (r.targetExt.map lowerStr) = true then .invalidReq
  else if (r.sourceExt.map lowerStr = some ((".pdf").data) ∨ endsPdfCI r.fileName = true) ∧
      (r.targetExt.map lowerStr = some ((".docx").data) ∨
        r.targetExt.map lowerStr = some ((".odt").data)) then
    .pdfBlocked
  else .convertAttempt (stripDot ((r.targetExt.map lowerStr).getD []))

/-- HTTP status of the modeled responses; `none` for the conversion attempt,
whose status depends on the external process. -/
def resStatus : ApiRes → Option Nat
  | .invalidReq => some 400
  | .pdfBlocked => some 400
  | .convertAttempt _ => none

/-- The format-selection slice of the page component state (page.tsx). -/
structure UIState where
  source : DocFormat
  target : DocFormat
deriving DecidableEq

def formatOptions : List DocFormat := [.PDF, .DOCX, .TXT, .RTF, .ODT]

/-- Model of `formatOptions.find((f) => f !== sourceFormat) || 'PDF'`
(page.tsx). -/
def firstAlt (src : DocFormat) : DocFormat :=
  ((formatOptions.find? (fun f => decide (f ≠ src))).getD .PDF)

/-- Model of the `useEffect` that resets the target whenever it collides with
the source (page.tsx); reachable UI states are post-effect states. -/
def reconcile (s : UIState) : UIState :=
  if s.target = s.source then { s with target := firstAlt s.source } else s

/-- Model of the target-format option list
`formatOptions.filter(option => option !== sourceFormat)` (page.tsx). -/
def targetChoices (s : UIState) : List DocFormat :=
  formatOptions.filter (fun f => decide (f ≠ s.source))

/-- Model of the extension auto-detection in `handleFilesSelected` (page.tsx). -/
def detectFmt (ext : JStr) : Option DocFormat :=
  if ext = ("pdf").data then some .PDF
  else if ext = ("docx").data ∨ ext = ("doc").data then some .DOCX
  else if ext = ("txt").data then some .TXT
  else if ext = ("rtf").data then some .RTF
  else if ext = ("odt").data then some .ODT
  else none

/-- Model of the state updates of `handleFilesSelected` (page.tsx): set the
detected source and move the target off it using the local fallback. -/
def applyDetect (ext : JStr) (s : UIState) : UIState :=
  match detectFmt ext with
  | none => s
  | some d =>
    { source := d,
      target := if s.target = d then (if d = .PDF then .DOCX else .PDF) else s.target }

/-- The initial selection (page.tsx): source DOCX, target PDF. -/
def initState : UIState := ⟨.DOCX, .PDF⟩

/-- Reachable post-effect UI states: the initial state, manual source
selection, manual target selection (restricted to the rendered option list),
and file-upload auto-detection, each followed by the collision effect. -/
inductive Reachable : UIState → Prop
  | init : Reachable initState
  | selectSource (s : UIState) (f : DocFormat) :
      Reachable s → Reachable (reconcile { s with source := f })
  | selectTarget (s : UIState) (f : DocFormat) :
      Reachable s → f ∈ targetChoices s → Reachable (reconcile { s with target := f })
  | chooseFile (s : UIState) (ext : JStr) :
      Reachable s → Reachable (reconcile (applyDetect ext s))

def emptyFile : JSFile := ⟨[], [], none, none, []⟩

def w1Env : ConvEnv := ⟨true, false, some ⟨true, true⟩, []⟩

def w3Env : ConvEnv := ⟨true, false, some ⟨false, false⟩, []⟩

def cexPage2 : PdfPage := ⟨[("abcdefghij          ").data], none⟩

def wPage2 : PdfPage := ⟨[("hi").data], none⟩

def wPage4a : PdfPage := ⟨[("This is page one with plenty of text content.").data], none⟩

def wPage4b : PdfPage := ⟨[("Here is page two, also having lots of words.").data], none⟩

def wPage4c : PdfPage := ⟨[("Finally page three closes out the document.").data], none⟩

def w4File : JSFile := ⟨("sample.pdf").data, [], none, none, [wPage4a, wPage4b, wPage4c]⟩

def w4Env : ConvEnv := ⟨false, false, some ⟨true, true⟩, ("2/3/2026, 9:15:00 AM").data⟩

def w5File : JSFile := ⟨("notes.txt").data, ("hello world").data, none, none, []⟩

def cEnv5a : ConvEnv := ⟨false, false, none, ("1/1/2025, 10:00:00 AM").data⟩

def cEnv5b : ConvEnv := ⟨false, false, none, ("1/1/2025, 10:00:01 AM").data⟩

def w6File : JSFile := ⟨("doc.docx").data, [], none, none, []⟩

def w8Req : ApiReq := ⟨true, ("Report.PDF").data, some ((".DOCX").data), some ((".pdf").data)⟩

def cEnv9 : ConvEnv := ⟨true, false, none, []⟩

def w10File : JSFile := ⟨("blank.txt").data, ("   ").data, none, none, []⟩

def w10Env : ConvEnv := ⟨false, false, some ⟨true, true⟩, ("5/6/2026, 1:00:00 PM").data⟩

theorem mem_of_mem_dropWhile {p : Char → Bool} {c : Char} :
    ∀ {l : List Char}, c ∈ l.dropWhile p → c ∈ l := by
  intro l
  induction l with
  | nil => intro h; simp at h
  | cons a t ih =>
    intro h
    rw [List.dropWhile_cons] at h
    split at h
    · exact List.mem_cons_of_mem a (ih h)
    · exact h

theorem mem_dropWhile_of_not {p : Char → Bool} {c : Char} (hc : p c = false) :
    ∀ {l : List Char}, c ∈ l → c ∈ l.dropWhile p := by
  intro l
  induction l with
  | nil => intro h; simp at h
  | cons a t ih =>
    intro h
    rw [List.dropWhile_cons]
    rcases List.mem_cons.mp h with h1 | hmem
    · subst h1
      rw [if_neg (by simp [hc])]
      exact List.mem_cons_self _ _
    · split
      · exact ih hmem
      · exact List.mem_cons_of_mem a hmem

theorem dropWhile_head_false {p : Char → Bool} {c : Char} {t : List Char} :
    ∀ {l : List Char}, l.dropWhile p = c :: t → p c = false := by
  intro l
  induction l with
  | nil => intro h; simp at h
  | cons a l ih =>
    intro h
    rw [List.dropWhile_cons] at h
    split at h
    · exact ih h
    · next hpa =>
      injection h with h1 _
      subst h1
      exact Bool.eq_false_iff.mpr hpa

theorem jsTrim_nil_of_dropWhile_nil {s : JStr} (h : s.dropWhile isWS = []) :
    jsTrim s = [] := by
  simp [jsTrim, h]

theorem exists_nonws_of_jsTrim_ne_nil {s : JStr} (h : jsTrim s ≠ []) :
    ∃ c, c ∈ s ∧ isWS c = false := by
  cases hd : s.dropWhile isWS with
  | nil => exact absurd (jsTrim_nil_of_dropWhile_nil hd) h
  | cons c t =>
    refine ⟨c, mem_of_mem_dropWhile (p := isWS) ?_, dropWhile_head_false hd⟩
    rw [hd]
    exact List.mem_cons_self _ _

theorem jsTrim_ne_nil_of_mem {s : JStr} {c : Char} (hc : c ∈ s) (hw : isWS c = false) :
    jsTrim s ≠ [] := by
  have h1 := mem_dropWhile_of_not hw hc
  have h2 : c ∈ (s.dropWhile isWS).reverse := List.mem_reverse.mpr h1
  have h3 := mem_dropWhile_of_not hw h2
  have h4 : c ∈ jsTrim s := List.mem_reverse.mpr h3
  exact List.ne_nil_of_mem h4

theorem processPage_snd (p : PdfPage) : (processPage p).2 = needsOCR (pageTextOf p) := by
  unfold processPage
  by_cases h : needsOCR (pageTextOf p) = true
  · rw [if_pos h, h]
    cases p.ocrText <;> simp
  · rw [if_neg h]
    simp [Bool.eq_false_iff.mpr h]

theorem processPage_of_not {p : PdfPage} (h : needsOCR (pageTextOf p) = false) :
    processPage p = (pageTextOf p, false) := by
  unfold processPage
  rw [if_neg (by simp [h])]

theorem map_congr_mem {α β : Type} {f g : α → β} :
    ∀ {l : List α}, (∀ a ∈ l, f a = g a) → l.map f = l.map g := by
  intro l
  induction l with
  | nil => intro _; rfl
  | cons a t ih =>
    intro h
    simp only [List.map_cons]
    rw [h a (List.mem_cons_self a t), ih (fun b hb => h b (List.mem_cons_of_mem a hb))]

theorem toPlain_id : ∀ {s : JStr}, (∀ c ∈ s, c ≠ nulChar) → toPlain s = s := by
  intro s
  induction s with
  | nil => intro _; rfl
  | cons a t ih =>
    intro h
    have ha : a ≠ nulChar := h a (List.mem_cons_self a t)
    have ht : toPlain t = t := ih (fun c hc => h c (List.mem_cons_of_mem a hc))
    show List.filter _ (a :: t) = a :: t
    rw [List.filter_cons, if_pos (by simp [ha])]
    exact congrArg (a :: ·) ht

theorem joinPages_cons_cons (t r : JStr) (rs : List JStr) :
    joinPages (t :: r :: rs) = t ++ '\n' :: '\n' :: joinPages (r :: rs) := rfl

theorem mem_joinPages_head {t : JStr} {rest : List JStr} {c : Char} (h : c ∈ t) :
    c ∈ joinPages (t :: rest) := by
  cases rest with
  | nil => simpa [joinPages] using h
  | cons r rs =>
    rw [joinPages_cons_cons]
    exact List.mem_append_left _ h

theorem joinPages_mem {c : Char} :
    ∀ {l : List JStr}, c ∈ joinPages l → c = '\n' ∨ ∃ t, t ∈ l ∧ c ∈ t := by
  intro l
  induction l with
  | nil => intro h; simp [joinPages] at h
  | cons t rest ih =>
    cases rest with
    | nil =>
      intro h
      right
      exact ⟨t, List.mem_cons_self _ _, by simpa [joinPages] using h⟩
    | cons r rs =>
      intro h
      rw [joinPages_cons_cons] at h
      rcases List.mem_append.mp h with h1 | h2
      · right; exact ⟨t, List.mem_cons_self _ _, h1⟩
      · rcases List.mem_cons.mp h2 with h3 | h4
        · left; exact h3
        · rcases List.mem_cons.mp h4 with h5 | h6
          · left; exact h5
          · rcases ih h6 with h7 | ⟨u, hu, hcu⟩
            · left; exact h7
            · right; exact ⟨u, List.mem_cons_of_mem _ hu, hcu⟩

theorem source_not_in_choices (s : UIState) : s.source ∉ targetChoices s := by
  intro h
  have := (List.mem_filter.mp h).2
  simp at this

theorem firstAlt_ne (f : DocFormat) : firstAlt f ≠ f := by
  cases f <;> decide

theorem reconcile_ok (s : UIState) : (reconcile s).target ≠ (reconcile s).source := by
  unfold reconcile
  split
  · exact firstAlt_ne s.source
  · next h => exact h

/-- Claim C1: requesting server mode with source PDF and target DOCX or ODT
always makes `convertDocument` fail with an error before any network request
is issued, for every Health Status value. -/
theorem server_pdf_docx_odt_blocked (env : ConvEnv) (file : JSFile) (tgt : DocFormat)
    (hs : env.useServer = true) (ht : tgt = .DOCX ∨ tgt = .ODT) :
    isErr (convertDocument env file .PDF tgt) = true ∧
    issuesNetwork (convertDocument env file .PDF tgt) = false := by
  unfold convertDocument
  by_cases hb : healthBad env.health = true
  · rw [if_pos ⟨hs, hb⟩]
    exact ⟨rfl, rfl⟩
  · rw [if_neg (fun h => hb h.2), if_pos ⟨hs, rfl, ht⟩]
    exact ⟨rfl, rfl⟩

/-- Witness for C1 at a healthy Health Status and target ODT. -/
theorem server_pdf_docx_odt_blocked_w :
    isErr (convertDocument w1Env emptyFile .PDF .ODT) = true ∧
    issuesNetwork (convertDocument w1Env emptyFile .PDF .ODT) = false :=
  server_pdf_docx_odt_blocked w1Env emptyFile .ODT rfl (Or.inr rfl)

/-- Claim C3: in server mode with the last recorded Health Status reporting
unavailable (`ok = false`), `convertDocument` fails immediately with the
explanatory unavailability error and issues no network request. -/
theorem server_unavailable_gate (env : ConvEnv) (file : JSFile) (src tgt : DocFormat)
    (h : HealthInfo) (hs : env.useServer = true) (hh : env.health = some h)
    (hok : h.ok = false) :
    convertDocument env file src tgt = .err msgUnavailable ∧
    issuesNetwork (convertDocument env file src tgt) = false := by
  have hb : healthBad env.health = true := by rw [hh]; simp [healthBad, hok]
  unfold convertDocument
  rw [if_pos ⟨hs, hb⟩]
  exact ⟨rfl, rfl⟩

/-- Witness for C3 at a TXT to PDF request. -/
theorem server_unavailable_gate_w :
    convertDocument w3Env emptyFile .TXT .PDF = .err msgUnavailable ∧
    issuesNetwork (convertDocument w3Env emptyFile .TXT .PDF) = false :=
  server_unavailable_gate w3Env emptyFile .TXT .PDF ⟨false, false⟩ rfl rfl rfl

/-- Claim C9 counterexample: with server mode requested and no recorded health
(`health = none`), a PDF to DOCX request does NOT proceed to the network: the
blocked-pair gate errors first, refuting the claim as stated. -/
theorem health_null_blocked_pair_cex :
    convertDocument cEnv9 emptyFile .PDF .DOCX = .err msgPdfBlocked ∧
    issuesNetwork (convertDocument cEnv9 emptyFile .PDF .DOCX) = false := by
  constructor <;> decide

/-- Claim C9 amended: with server mode requested and no recorded health, the
availability gate does not fire, and for every pair other than PDF to DOCX
and PDF to ODT the network request to the conversion endpoint is issued. -/
theorem health_null_proceeds_server (env : ConvEnv) (file : JSFile) (src tgt : DocFormat)
    (hs : env.useServer = true) (hn : env.health = none)
    (hb : ¬(src = .PDF ∧ (tgt = .DOCX ∨ tgt = .ODT))) :
    convertDocument env file src tgt = .serverRequest (extOf src) (extOf tgt) := by
  unfold convertDocument
  rw [if_neg (fun h => by rw [hn] at h; simp [healthBad] at h),
    if_neg (fun h => hb ⟨h.2.1, h.2.2⟩), if_pos hs]

/-- Witness for the amended C9 at a TXT to PDF request. -/
theorem health_null_proceeds_server_w :
    convertDocument cEnv9 emptyFile .TXT .PDF = .serverRequest (extOf .TXT) (extOf .PDF) :=
  health_null_proceeds_server cEnv9 emptyFile .TXT .PDF rfl rfl (by decide)

/-- Claim C2 counterexample: a page whose text layer is ten letters followed
by ten spaces has raw length 20 and alphanumeric density 50 percent, so the
claimed trigger condition is false, yet the code enters the OCR path because
it tests the TRIMMED length (10 < 20). -/
theorem ocr_trigger_raw_length_cex :
    (processPage cexPage2).2 = true ∧ specNeedsOCR (pageTextOf cexPage2) = false := by
  constructor <;> decide

/-- Claim C2 amended: the OCR fallback path is entered if and only if the
TRIMMED text-layer output has fewer than 20 characters or fewer than 20
percent of the raw output characters are alphanumeric; a page that fails the
trigger keeps its text-layer output unchanged. -/
theorem ocr_trigger_trimmed_iff (p : PdfPage) :
    ((processPage p).2 = true ↔
      ((jsTrim (pageTextOf p)).length < 20 ∨
        5 * alnumCount (pageTextOf p) < (pageTextOf p).length)) ∧
    ((processPage p).2 = false → (processPage p).1 = pageTextOf p) := by
  constructor
  · rw [processPage_snd]
    unfold needsOCR
    simp
  · intro h2
    have hb : needsOCR (pageTextOf p) = false := by rw [← processPage_snd]; exact h2
    rw [processPage_of_not hb]

/-- Witness for the amended C2 at a two-character page. -/
theorem ocr_trigger_trimmed_iff_w : (processPage wPage2).2 = true :=
  (ocr_trigger_trimmed_iff wPage2).1.mpr (Or.inl (by decide))

/-- Claim C5 counterexample: two runs of the TXT to TXT client conversion on
the same input file at clock readings one second apart produce different
bytes, because the provenance header embeds the conversion timestamp. -/
theorem txt_txt_time_dependent_cex :
    convertDocument cEnv5a w5File .TXT .TXT ≠ convertDocument cEnv5b w5File .TXT .TXT := by
  decide

/-- Claim C5 amended: the TXT-target client conversion is a pure function of
its input and the observed timestamp: for the same input and the same
timestamp it returns, on every run, exactly the header followed by the
original text, byte for byte. -/
theorem txt_txt_same_time_output (env : ConvEnv) (file : JSFile)
    (hs : env.useServer = false) (hne : jsTrim file.text ≠ []) :
    convertDocument env file .TXT .TXT =
      .client (mkHeader env file .TXT .TXT ++ file.text)
        (.text (mkHeader env file .TXT .TXT ++ file.text) (mimeOf .TXT)) := by
  unfold convertDocument
  rw [if_neg (fun h => by rw [hs] at h; simp at h),
    if_neg (fun h => by rw [hs] at h; simp at h),
    if_neg (fun h => by rw [hs] at h; simp at h),
    if_neg (by simp)]
  simp only [extractText]
  rw [if_neg hne]
  rfl

/-- Witness for the amended C5. -/
theorem txt_txt_same_time_output_w :
    convertDocument cEnv5a w5File .TXT .TXT =
      .client (mkHeader cEnv5a w5File .TXT .TXT ++ w5File.text)
        (.text (mkHeader cEnv5a w5File .TXT .TXT ++ w5File.text) (mimeOf .TXT)) :=
  txt_txt_same_time_output cEnv5a w5File rfl (by decide)

/-- Claim C4: for a client-mode PDF whose every page passes the OCR heuristic
(full text layer, so OCR never triggers; page texts contain no NUL characters,
which the extractor would strip), extraction returns the page texts joined by
blank-line separators in page order, and the TXT conversion yields exactly the
provenance header followed by that joined text. -/
theorem pdf_full_text_extraction_txt (env : ConvEnv) (file : JSFile)
    (hs : env.useServer = false) (hne : file.pdfPages ≠ [])
    (hocr : ∀ p ∈ file.pdfPages, needsOCR (pageTextOf p) = false)
    (hnul : ∀ p ∈ file.pdfPages, nulChar ∉ pageTextOf p) :
    extractText file .PDF = joinPages (file.pdfPages.map pageTextOf) ∧
    convertDocument env file .PDF .TXT =
      .client (mkHeader env file .PDF .TXT ++ joinPages (file.pdfPages.map pageTextOf))
        (.text (mkHeader env file .PDF .TXT ++ joinPages (file.pdfPages.map pageTextOf))
          (mimeOf .TXT)) := by
  have hmap : file.pdfPages.map (fun p => (processPage p).1) = file.pdfPages.map pageTextOf :=
    map_congr_mem (fun p hp => by rw [processPage_of_not (hocr p hp)])
  have hjoin : ∀ c ∈ joinPages (file.pdfPages.map pageTextOf), c ≠ nulChar := by
    intro c hc
    rcases joinPages_mem hc with h | ⟨t, ht, hct⟩
    · subst h; decide
    · rcases List.mem_map.mp ht with ⟨p, hp, rfl⟩
      exact fun h0 => hnul p hp (h0 ▸ hct)
  have hext : extractText file .PDF = joinPages (file.pdfPages.map pageTextOf) := by
    show toPlain (joinPages (file.pdfPages.map fun p => (processPage p).1)) = _
    rw [hmap]
    exact toPlain_id hjoin
  have htrim : jsTrim (joinPages (file.pdfPages.map pageTextOf)) ≠ [] := by
    obtain ⟨p0, rest, hps⟩ := List.exists_cons_of_ne_nil hne
    have h0 := hocr p0 (by rw [hps]; exact List.mem_cons_self _ _)
    have hlen : ¬ (jsTrim (pageTextOf p0)).length < 20 := by
      intro hl
      have hT : needsOCR (pageTextOf p0) = true := by unfold needsOCR; simp [hl]
      rw [h0] at hT
      exact Bool.noConfusion hT
    have htne : jsTrim (pageTextOf p0) ≠ [] := by
      intro hnil
      apply hlen
      rw [hnil]
      simp
    obtain ⟨c, hcs, hcw⟩ := exists_nonws_of_jsTrim_ne_nil htne
    have hcj : c ∈ joinPages (file.pdfPages.map pageTextOf) := by
      rw [hps, List.map_cons]
      exact mem_joinPages_head hcs
    exact jsTrim_ne_nil_of_mem hcj hcw
  refine ⟨hext, ?_⟩
  unfold convertDocument
  rw [if_neg (fun h => by rw [hs] at h; simp at h),
    if_neg (fun h => by rw [hs] at h; simp at h),
    if_neg (fun h => by rw [hs] at h; simp at h),
    if_neg (by simp)]
  rw [hext, if_neg htrim]
  rfl

/-- Witness for C4 at a concrete three-page PDF with dense text layers. -/
theorem pdf_full_text_extraction_txt_w :
    extractText w4File .PDF = joinPages (w4File.pdfPages.map pageTextOf) ∧
    convertDocument w4Env w4File .PDF .TXT =
      .client (mkHeader w4Env w4File .PDF .TXT ++ joinPages (w4File.pdfPages.map pageTextOf))
        (.text (mkHeader w4Env w4File .PDF .TXT ++ joinPages (w4File.pdfPages.map pageTextOf))
          (mimeOf .TXT)) :=
  pdf_full_text_extraction_txt w4Env w4File rfl (by decide) (by decide) (by decide)

/-- Claim C10: for every client-path conversion whose extracted text trims to
empty, the artifact body handed to every builder is exactly the provenance
header followed by the placeholder, hence never empty and never the header
alone. -/
theorem empty_text_placeholder_body (env : ConvEnv) (file : JSFile) (src tgt : DocFormat)
    (hs : env.useServer = false)
    (hl : ¬(src = .PDF ∧ tgt = .DOCX ∧ env.preserveLayout = true))
    (he : jsTrim (extractText file src) = []) :
    convertDocument env file src tgt =
      .client (mkHeader env file src tgt ++ placeholder)
        (buildArtifact (mkHeader env file src tgt ++ placeholder) tgt) ∧
    mkHeader env file src tgt ++ placeholder ≠ [] ∧
    mkHeader env file src tgt ++ placeholder ≠ mkHeader env file src tgt := by
  refine ⟨?_, ?_, ?_⟩
  · unfold convertDocument
    rw [if_neg (fun h => by rw [hs] at h; simp at h),
      if_neg (fun h => by rw [hs] at h; simp at h),
      if_neg (fun h => by rw [hs] at h; simp at h),
      if_neg hl, if_pos he]
  · intro h
    have h2 := congrArg List.length h
    rw [List.length_append] at h2
    have hp : placeholder.length = 27 := by decide
    rw [hp] at h2
    simp at h2
  · intro h
    have h2 := congrArg List.length h
    rw [List.length_append] at h2
    have hp : placeholder.length = 27 := by decide
    rw [hp] at h2
    omega

/-- Witness for C10 at a whitespace-only TXT source converted to PDF. -/
theorem empty_text_placeholder_body_w :
    convertDocument w10Env w10File .TXT .PDF =
      .client (mkHeader w10Env w10File .TXT .PDF ++ placeholder)
        (buildArtifact (mkHeader w10Env w10File .TXT .PDF ++ placeholder) .PDF) ∧
    mkHeader w10Env w10File .TXT .PDF ++ placeholder ≠ [] ∧
    mkHeader w10Env w10File .TXT .PDF ++ placeholder ≠ mkHeader w10Env w10File .TXT .PDF :=
  empty_text_placeholder_body w10Env w10File .TXT .PDF rfl (by decide) (by decide)

/-- Claim C6: a DOCX or ODT file whose archive lacks its main markup part
yields empty extracted text, and one whose markup part is malformed so that
the pattern scraper finds no complete text run (DOCX) or no complete
paragraph element (ODT) also yields empty extracted text; this extraction
path is total in the model, never an exception. -/
theorem missing_markup_empty_text :
    (∀ file : JSFile, file.docxXml = none → extractText file .DOCX = []) ∧
    (∀ file : JSFile, file.odtXml = none → extractText file .ODT = []) ∧
    (∀ (file : JSFile) (xml : JStr), file.docxXml = some xml →
      findWTs (xml.length + 1) xml = [] → extractText file .DOCX = []) ∧
    (∀ (file : JSFile) (xml : JStr), file.odtXml = some xml →
      findTPs (xml.length + 1) xml = [] → extractText file .ODT = []) := by
  refine ⟨?_, ?_, ?_, ?_⟩
  · intro file h
    simp only [extractText, h]
  · intro file h
    simp only [extractText, h]
  · intro file xml h hw
    simp only [extractText, h]
    unfold docxScrape
    rw [hw]
    simp only [List.flatten_nil]
    split <;> rfl
  · intro file xml h hw
    simp only [extractText, h]
    unfold odtScrape
    rw [hw]
    rfl

/-- Witness for C6 at a DOCX archive lacking `word/document.xml`. -/
theorem missing_markup_empty_text_w : extractText w6File .DOCX = [] :=
  missing_markup_empty_text.1 w6File rfl

/-- Claim C7: in every reachable post-effect UI state the target format
differs from the source format, and the source format is never among the
rendered target-format choices. -/
theorem ui_target_ne_source_invariant (s : UIState) (h : Reachable s) :
    s.target ≠ s.source ∧ s.source ∉ targetChoices s := by
  refine ⟨?_, source_not_in_choices s⟩
  induction h with
  | init => decide
  | selectSource s f hr ih => exact reconcile_ok _
  | selectTarget s f hr hmem ih => exact reconcile_ok _
  | chooseFile s ext hr ih => exact reconcile_ok _

/-- Witness for C7 at the initial state. -/
theorem ui_target_ne_source_invariant_w :
    initState.target ≠ initState.source ∧ initState.source ∉ targetChoices initState :=
  ui_target_ne_source_invariant initState Reachable.init

/-- Claim C8: every POST whose lowercased source extension is `.pdf` and
whose lowercased target extension is `.docx` or `.odt` is rejected by the
endpoint with HTTP 400 before any conversion is attempted. -/
theorem api_pdf_block_400 (r : ApiReq) (hf : r.hasBlobFile = true)
    (hsrc : r.sourceExt.map lowerStr = some ((".pdf").data))
    (htgt : r.targetExt.map lowerStr = some ((".docx").data) ∨
      r.targetExt.map lowerStr = some ((".odt").data)) :
    postRoute r = .pdfBlocked ∧ resStatus (postRoute r) = some 400 := by
  have h1 : ¬(r.hasBlobFile = false ∨ falsyOpt (r.targetExt.map lowerStr) = true) := by
    rintro (h | h)
    · rw [hf] at h; simp at h
    · rcases htgt with h2 | h2 <;> rw [h2] at h <;> exact absurd h (by decide)
  unfold postRoute
  rw [if_neg h1, if_pos ⟨Or.inl hsrc, htgt⟩]
  exact ⟨rfl, rfl⟩

/-- Witness for C8 at an uppercase target extension and a `.PDF` filename. -/
theorem api_pdf_block_400_w :
    postRoute w8Req = .pdfBlocked ∧ resStatus (postRoute w8Req) = some 400 :=
  api_pdf_block_400 w8Req rfl (by decide) (Or.inl (by decide))
